import Mathlib

/-!
Verification development for the LuaJIT 2.0 bytecode-dump decoder
(package luajit, file luajit.go).

The decoder is a plugin over a generic cursor-based binary-decoding
toolkit.  We model the byte stream as a `List Nat` of byte values and each
decode routine as a function from the remaining stream to a result that is
either success (a decoded value together with the remaining stream), a
decode error, or a runtime fault (a Go panic).  Machine `uint64` arithmetic
is modelled as `Nat` arithmetic reduced `% 2 ^ 64` at the points where the
Go code wraps.  IEEE-754 doubles are represented by their 64-bit patterns
(the source reinterprets bit patterns verbatim and never performs float
arithmetic, so this representation is exact and injective).
-/

/-- Decode-error kinds surfaced by the decoder or by the host toolkit:
a failed magic assertion, an opcode byte with no table entry, and a
truncated read (which also covers reads hitting a proto's length boundary,
since the boundary is enforced by windowing the stream). -/
inductive DErr where
  | invalidFormat
  | unknownOpcode
  | eof
deriving DecidableEq

/-- Result of one decode step: success with the unconsumed rest of the
stream, a decode error (which aborts the whole decode and carries no
partial result), or a runtime fault (Go panic, e.g. an out-of-range
slice index). -/
inductive DRes (α : Type) where
  | ok (a : α) (rest : List Nat)
  | err (e : DErr)
  | fault
deriving DecidableEq

/-- Sequencing of decode steps; errors and faults propagate. -/
def DRes.bind {α β : Type} : DRes α → (α → List Nat → DRes β) → DRes β
  | .ok a rest, f => f a rest
  | .err e, _ => .err e
  | .fault, _ => .fault

/-- Host-toolkit primitive: read one byte (`d.FieldU8`). -/
def readU8 : List Nat → DRes Nat
  | [] => .err .eof
  | b :: rest => .ok b rest

/-- Host-toolkit primitive: read one 16-bit value (`d.FieldU16`) in the
currently active byte order (`be = true` for big-endian). -/
def readU16 (be : Bool) : List Nat → DRes Nat
  | b1 :: b2 :: rest => .ok (if be then b1 * 256 + b2 else b2 * 256 + b1) rest
  | _ => .err .eof

/-- Host-toolkit primitive: read `n` raw bytes (`d.FieldStr` with the
pass-through encoding, `d.FieldRawLen`). -/
def readBytes (n : Nat) (s : List Nat) : DRes (List Nat) :=
  if n ≤ s.length then .ok (s.take n) (s.drop n) else .err .eof

/-- Mathematical value of a ULEB128 prefix: 7 payload bits per byte,
continuation bit 0x80, least-significant group first. -/
def ulebRaw : List Nat → DRes Nat
  | [] => .err .eof
  | b :: rest =>
    if b &&& 0x80 = 0 then .ok (b &&& 0x7f) rest
    else (ulebRaw rest).bind fun v r => .ok ((b &&& 0x7f) + 128 * v) r

/-- Host-toolkit primitive: read a variable-length unsigned integer
(`d.FieldULEB128` / `d.ULEB128`).  The host accumulates the groups into a
`uint64`, so the delivered value is the encoded value reduced `% 2 ^ 64`
(groups shifted past bit 63 are dropped by the wrapping shift). -/
def uleb (s : List Nat) : DRes Nat :=
  (ulebRaw s).bind fun v r => .ok (v % 2 ^ 64) r

/-- An IEEE-754 double represented by its 64-bit pattern. -/
structure F64 where
  bits : Nat
deriving DecidableEq

/-- Reinterpret a 64-bit unsigned pattern as a double (`u64tof64` in the
source: writes the 8 bytes big-endian and reads them back as a float64).
The reinterpretation is a bijection on 64-bit patterns, so we keep the
pattern itself. -/
def u64tof64 (u : Nat) : F64 := ⟨u % 2 ^ 64⟩

/-- Reinterpret a 64-bit unsigned pattern as a two's-complement signed
64-bit integer (Go's `int64(u)`). -/
def toInt64 (n : Nat) : Int :=
  if n % 2 ^ 64 < 2 ^ 63 then ((n % 2 ^ 64 : Nat) : Int)
  else ((n % 2 ^ 64 : Nat) : Int) - 2 ^ 64

/-- A scalar as the host toolkit hands it to a `MapUint` transform: the
numeric value just read plus an optional symbolic decoration
(`scalar.Uint` with its `Actual` and `Sym`). -/
structure UintS where
  actual : Nat
  sym : Option String
deriving DecidableEq

/-- The jump-bias corrector (`jumpBias.MapUint`): subtracts 0x8000 from
the raw value with `uint64` wraparound and reports no error. -/
def jumpBiasMapUint (u : UintS) : UintS × Option DErr :=
  (⟨(u.actual + (2 ^ 64 - 0x8000)) % 2 ^ 64, u.sym⟩, none)

/-- The table-constant tag mapper (`ktabType.MapUint`): attaches a
symbolic name, leaves the numeric value unchanged, reports no error. -/
def ktabTypeMapUint (u : UintS) : UintS × Option DErr :=
  (⟨u.actual,
    some (match u.actual with
      | 0 => "nil"
      | 1 => "false"
      | 2 => "true"
      | 3 => "int"
      | 4 => "num"
      | _ => "str")⟩, none)

/-- The GC-constant tag mapper (`kgcType.MapUint`): attaches a symbolic
name, leaves the numeric value unchanged, reports no error. -/
def kgcTypeMapUint (u : UintS) : UintS × Option DErr :=
  (⟨u.actual,
    some (match u.actual with
      | 0 => "child"
      | 1 => "tab"
      | 2 => "i64"
      | 3 => "u64"
      | 4 => "complex"
      | _ => "str")⟩, none)

/-- Host-toolkit behaviour of a `FieldU8` with a scalar transform: read,
apply the transform, abort with its error if it reports one, otherwise
deliver the (possibly rewritten) value. -/
def fieldU8Mapped (m : UintS → UintS × Option DErr) (s : List Nat) : DRes Nat :=
  (readU8 s).bind fun v s1 =>
    match m ⟨v, none⟩ with
    | (u, none) => .ok u.actual s1
    | (_, some e) => .err e

/-- Host-toolkit behaviour of a `FieldU16` with a scalar transform. -/
def fieldU16Mapped (m : UintS → UintS × Option DErr) (be : Bool) (s : List Nat) : DRes Nat :=
  (readU16 be s).bind fun v s1 =>
    match m ⟨v, none⟩ with
    | (u, none) => .ok u.actual s1
    | (_, some e) => .err e

/-- Host-toolkit behaviour of a `FieldULEB128` with a scalar transform. -/
def fieldULEBMapped (m : UintS → UintS × Option DErr) (s : List Nat) : DRes Nat :=
  (uleb s).bind fun v s1 =>
    match m ⟨v, none⟩ with
    | (u, none) => .ok u.actual s1
    | (_, some e) => .err e

/-- One opcode-table entry: the two mode bits consulted by the
instruction decoder (`opcodes[op].HasD()` and `opcodes[op].IsJump()`).
The table's literal contents live in a repository file outside the given
source, so the decoders below are parameterised by the table. -/
structure OpInfo where
  hasD : Bool
  isJump : Bool
deriving DecidableEq

/-- Modelled from the spec: the opcode symbol decorator `bcOpSyms` is a
package symbol whose defining file is not part of the given source.  Per
the spec's opcode-table contract, lookup by raw opcode byte is
bounds-checked and an opcode number with no corresponding entry is an
`UnknownOpcode` decode error, not a default entry.  The symbolic names
themselves are also outside the given source, so an in-range value is
passed through undecorated. -/
def bcOpSymsMap (ops : List OpInfo) (u : UintS) : UintS × Option DErr :=
  if u.actual < ops.length then (u, none) else (u, some .unknownOpcode)

/-- Operand part of a decoded instruction: a jump-biased wide operand, a
plain wide operand, or the `c`/`b` byte pair (read in that order). -/
inductive InsArgs where
  | j (v : Nat)
  | d (v : Nat)
  | cb (c b : Nat)
deriving DecidableEq

/-- One decoded 4-byte bytecode instruction. -/
structure Ins where
  op : Nat
  a : Nat
  args : InsArgs
deriving DecidableEq

/-- Instruction decoder (`LuaJITDecodeBCIns`): opcode byte (decorated via
the opcode symbol table), `a` byte, then either one 16-bit `d`/`j`
operand in the active byte order (jump-bias corrected when the opcode is
a jump) or the `c` and `b` bytes.  The `.fault` arm models the unguarded
Go index `opcodes[int(op)]`; it is unreachable because the modelled
`bcOpSyms` lookup has already rejected out-of-range opcodes. -/
def LuaJITDecodeBCIns (ops : List OpInfo) (be : Bool) (s : List Nat) : DRes Ins :=
  (fieldU8Mapped (bcOpSymsMap ops) s).bind fun op s1 =>
  (readU8 s1).bind fun a s2 =>
  if h : op < ops.length then
    if (ops.get ⟨op, h⟩).hasD then
      if (ops.get ⟨op, h⟩).isJump then
        (fieldU16Mapped jumpBiasMapUint be s2).bind fun j s3 => .ok ⟨op, a, .j j⟩ s3
      else
        (readU16 be s2).bind fun d s3 => .ok ⟨op, a, .d d⟩ s3
    else
      (readU8 s2).bind fun c s3 =>
      (readU8 s3).bind fun b s4 => .ok ⟨op, a, .cb c b⟩ s4
  else .fault

/-- Payload of a table-constant entry. -/
inductive KTabPayload where
  | none
  | int (n : Nat)
  | num (f : F64)
  | str (bs : List Nat)
deriving DecidableEq

/-- One decoded table-constant key/value entry (tag plus payload). -/
structure KTabKV where
  tag : Nat
  payload : KTabPayload
deriving DecidableEq

/-- Table-constant entry decoder (`LuaJITDecodeKTabK`): ULEB128 tag
(decorated by `ktabType`), then tag ≥ 5 → (tag − 5) raw bytes; tag 3 →
one ULEB128 integer; tag 4 → two ULEB128 halves combined `(hi<<32)+lo`
(wrapping) and reinterpreted as a double; tags 0/1/2 → no payload. -/
def LuaJITDecodeKTabK (s : List Nat) : DRes KTabKV :=
  (fieldULEBMapped ktabTypeMapUint s).bind fun tag s1 =>
  if 5 ≤ tag then
    (readBytes (tag - 5) s1).bind fun bs s2 => .ok ⟨tag, .str bs⟩ s2
  else if tag = 3 then
    (uleb s1).bind fun n s2 => .ok ⟨tag, .int n⟩ s2
  else if tag = 4 then
    (uleb s1).bind fun lo s2 =>
    (uleb s2).bind fun hi s3 => .ok ⟨tag, .num (u64tof64 ((hi <<< 32) + lo))⟩ s3
  else .ok ⟨tag, .none⟩ s1

/-- One key/value pair of a table constant's hash part. -/
def decodeKTabKPair (s : List Nat) : DRes (KTabKV × KTabKV) :=
  (LuaJITDecodeKTabK s).bind fun k s1 =>
  (LuaJITDecodeKTabK s1).bind fun v s2 => .ok (k, v) s2

/-- A decoded table constant: the two counts and the array and hash
parts. -/
structure KTab where
  narray : Nat
  nhash : Nat
  karray : List KTabKV
  khash : List (KTabKV × KTabKV)
deriving DecidableEq

/-- Decode a fixed count of elements with a given element decoder (the
`for i := 0; i < n; i++` field-array loops of the source). -/
def decodeN {α : Type} (f : List Nat → DRes α) : Nat → List Nat → DRes (List α)
  | 0, s => .ok [] s
  | n + 1, s =>
    (f s).bind fun a s1 =>
    (decodeN f n s1).bind fun as s2 => .ok (a :: as) s2

/-- Table-constant decoder (the `tab` case of `LuaJITDecodeKGC`):
`narray` and `nhash` counts, then `narray` entries, then `nhash`
key/value pairs. -/
def LuaJITDecodeKTab (s : List Nat) : DRes KTab :=
  (uleb s).bind fun narray s1 =>
  (uleb s1).bind fun nhash s2 =>
  (decodeN LuaJITDecodeKTabK narray s2).bind fun ka s3 =>
  (decodeN decodeKTabKPair nhash s3).bind fun kh s4 =>
  .ok ⟨narray, nhash, ka, kh⟩ s4

/-- Payload of a GC constant.  `.none` is the empty payload: tag 0
(`child`, a positional reference to a previously decoded prototype)
reads nothing. -/
inductive KGCPayload where
  | none
  | tab (t : KTab)
  | i64 (v : Int)
  | u64 (v : Nat)
  | complex (re im : F64)
  | str (bs : List Nat)
deriving DecidableEq

/-- One decoded GC constant (tag plus payload). -/
structure KGCV where
  tag : Nat
  payload : KGCPayload
deriving DecidableEq

/-- GC-constant decoder (`LuaJITDecodeKGC`): ULEB128 tag (decorated by
`kgcType`), then tag ≥ 5 → (tag − 5) raw bytes; tag 0 → nothing; tag 1 →
a nested table constant; tag 2/3 → two ULEB128 halves combined
`(hi<<32)+lo` (wrapping), exposed signed (2) or unsigned (3); tag 4 →
two independent (lo, hi) pairs each reinterpreted as a double. -/
def LuaJITDecodeKGC (s : List Nat) : DRes KGCV :=
  (fieldULEBMapped kgcTypeMapUint s).bind fun tag s1 =>
  if 5 ≤ tag then
    (readBytes (tag - 5) s1).bind fun bs s2 => .ok ⟨tag, .str bs⟩ s2
  else if tag = 1 then
    (LuaJITDecodeKTab s1).bind fun t s2 => .ok ⟨tag, .tab t⟩ s2
  else if tag = 2 then
    (uleb s1).bind fun lo s2 =>
    (uleb s2).bind fun hi s3 => .ok ⟨tag, .i64 (toInt64 ((hi <<< 32) + lo))⟩ s3
  else if tag = 3 then
    (uleb s1).bind fun lo s2 =>
    (uleb s2).bind fun hi s3 => .ok ⟨tag, .u64 (((hi <<< 32) + lo) % 2 ^ 64)⟩ s3
  else if tag = 4 then
    (uleb s1).bind fun rlo s2 =>
    (uleb s2).bind fun rhi s3 =>
    (uleb s3).bind fun ilo s4 =>
    (uleb s4).bind fun ihi s5 =>
      .ok ⟨tag, .complex (u64tof64 ((rhi <<< 32) + rlo)) (u64tof64 ((ihi <<< 32) + ilo))⟩ s5
  else .ok ⟨tag, .none⟩ s1

/-- A decoded numeric constant: a plain unsigned integer or a double. -/
inductive KNumV where
  | uint (n : Nat)
  | num (f : F64)
deriving DecidableEq

/-- Parity-tagged pair decoder (`LuaJITDecodeCplx`): read `lo`; if its
least-significant bit is 0 the value is `lo >> 1`, otherwise read `hi`
and reinterpret `(hi<<32)+(lo>>1)` (wrapping) as a double.  Present in
the source but not reached from the documented decode flow. -/
def LuaJITDecodeCplx (s : List Nat) : DRes KNumV :=
  (uleb s).bind fun lo s1 =>
  if lo &&& 1 = 0 then .ok (.uint (lo >>> 1)) s1
  else
    (uleb s1).bind fun hi s2 => .ok (.num (u64tof64 ((hi <<< 32) + (lo >>> 1)))) s2

/-- Numeric-constant decoder (`LuaJITDecodeKNum`): read `lo`; if its
least-significant bit is 0 the value is `lo >> 1`, otherwise read `hi`
and reinterpret `(hi<<32)+(lo>>1)` (wrapping) as a double. -/
def LuaJITDecodeKNum (s : List Nat) : DRes KNumV :=
  (uleb s).bind fun lo s1 =>
  if lo &&& 1 = 0 then .ok (.uint (lo >>> 1)) s1
  else
    (uleb s1).bind fun hi s2 => .ok (.num (u64tof64 ((hi <<< 32) + (lo >>> 1)))) s2

/-- A decoded dump header. -/
structure Header where
  version : Nat
  flagsRaw : Nat
  be : Bool
  strip : Bool
  ffi : Bool
  fr2 : Bool
  name : Option (List Nat)
deriving DecidableEq

/-- Header fields after the 3-byte magic: version byte, ULEB128 flags
bitfield decomposed with masks 0x01/0x02/0x04/0x08, and, when the strip
bit is clear, a 1-byte name length followed by that many raw name
bytes. -/
def decodeHeaderBody (s : List Nat) : DRes Header :=
  (readU8 s).bind fun version s1 =>
  (uleb s1).bind fun flags s2 =>
  if 0 < flags &&& 0x02 then
    .ok ⟨version, flags, decide (0 < flags &&& 0x01), true,
         decide (0 < flags &&& 0x04), decide (0 < flags &&& 0x08), none⟩ s2
  else
    (readU8 s2).bind fun namelen s3 =>
    (readBytes namelen s3).bind fun nm s4 =>
    .ok ⟨version, flags, decide (0 < flags &&& 0x01), false,
         decide (0 < flags &&& 0x04), decide (0 < flags &&& 0x08), some nm⟩ s4

/-- Header decoder (`LuaJITDecodeHeader`): asserts the 3-byte magic
0x1B 0x4C 0x4A (mismatch is an `InvalidFormat` error; a stream shorter
than 3 bytes is a truncated read), then decodes the rest of the
header. -/
def LuaJITDecodeHeader (s : List Nat) : DRes Header :=
  if s.length < 3 then .err .eof
  else if s.take 3 = [0x1B, 0x4C, 0x4A] then decodeHeaderBody (s.drop 3)
  else .err .invalidFormat

/-- Per-dump context recorded at header time (`DumpInfo`): the strip
flag and the byte order selected once for the rest of the stream. -/
structure DumpInfo where
  strip : Bool
  bigEndian : Bool
deriving DecidableEq

/-- A decoded proto header block. -/
structure PHead where
  flags : Nat
  numparams : Nat
  framesize : Nat
  numuv : Nat
  numkgc : Nat
  numkn : Nat
  numbc : Nat
  debuglen : Nat
  lineinfo : Option (Nat × Nat)
deriving DecidableEq

/-- The contents of one prototype inside its length boundary. -/
structure PData where
  phead : PHead
  bcins : List Ins
  uvdata : List Nat
  kgc : List KGCV
  knum : List KNumV
  dbg : Option (List Nat)
deriving DecidableEq

/-- One decoded prototype: the declared byte length and its contents. -/
structure Proto where
  length : Nat
  pdata : PData
deriving DecidableEq

/-- Proto header block: three fixed bytes, the upvalue count byte, three
ULEB128 counts, and, when the dump is not stripped, `debuglen` and (when
it is positive) `firstline`/`numline`. -/
def decodePHead (di : DumpInfo) (s : List Nat) : DRes PHead :=
  (readU8 s).bind fun flags s1 =>
  (readU8 s1).bind fun numparams s2 =>
  (readU8 s2).bind fun framesize s3 =>
  (readU8 s3).bind fun numuv s4 =>
  (uleb s4).bind fun numkgc s5 =>
  (uleb s5).bind fun numkn s6 =>
  (uleb s6).bind fun numbc s7 =>
  if di.strip then
    .ok ⟨flags, numparams, framesize, numuv, numkgc, numkn, numbc, 0, none⟩ s7
  else
    (uleb s7).bind fun debuglen s8 =>
    if 0 < debuglen then
      (uleb s8).bind fun firstline s9 =>
      (uleb s9).bind fun numline s10 =>
      .ok ⟨flags, numparams, framesize, numuv, numkgc, numkn, numbc, debuglen,
           some (firstline, numline)⟩ s10
    else
      .ok ⟨flags, numparams, framesize, numuv, numkgc, numkn, numbc, debuglen, none⟩ s8

/-- Contents of one prototype, in source order: proto header, `numbc`
instructions, `numuv` 16-bit upvalue descriptors in the active byte
order, `numkgc` GC constants, `numkn` numeric constants and, when not
stripped, `debuglen` raw debug bytes. -/
def decodePData (ops : List OpInfo) (di : DumpInfo) (s : List Nat) : DRes PData :=
  (decodePHead di s).bind fun ph s1 =>
  (decodeN (LuaJITDecodeBCIns ops di.bigEndian) ph.numbc s1).bind fun bcs s2 =>
  (decodeN (readU16 di.bigEndian) ph.numuv s2).bind fun uvs s3 =>
  (decodeN LuaJITDecodeKGC ph.numkgc s3).bind fun kgcs s4 =>
  (decodeN LuaJITDecodeKNum ph.numkn s4).bind fun kns s5 =>
  if di.strip then .ok ⟨ph, bcs, uvs, kgcs, kns, none⟩ s5
  else
    (decodeN readU8 ph.debuglen s5).bind fun dbs s6 =>
    .ok ⟨ph, bcs, uvs, kgcs, kns, some dbs⟩ s6

/-- Prototype decoder (`LuaJITDecodeProto`): reads the ULEB128 `length`,
then decodes the proto's contents inside a hard read boundary of exactly
`length` bytes.  The host's byte-length-bounded sub-decoding scope is
modelled by running the contents on the `length`-byte window: a read
past the window fails as a truncated read, and the bytes beyond the
window are re-attached, untouched, behind whatever the inner decode left
unconsumed. -/
def LuaJITDecodeProto (ops : List OpInfo) (di : DumpInfo) (s : List Nat) : DRes Proto :=
  (uleb s).bind fun len s1 =>
  match decodePData ops di (s1.take len) with
  | .ok pd w => .ok ⟨len, pd⟩ (w ++ s1.drop len)
  | .err e => .err e
  | .fault => .fault

/-- The sentinel-terminated proto sequence: peek one byte (failing if
none is left), stop without consuming when it is 0, otherwise decode one
prototype and repeat.  The `fuel` argument only makes the recursion
structural; every prototype consumes at least its length byte, so with
fuel exceeding the stream length (as supplied by `LuaJITDecode`) it
never runs out. -/
def protoLoop (ops : List OpInfo) (di : DumpInfo) : Nat → List Nat → DRes (List Proto)
  | _, [] => .err .eof
  | 0, _ :: _ => .err .eof
  | n + 1, b :: rest =>
    if b = 0 then .ok [] (b :: rest)
    else
      match LuaJITDecodeProto ops di (b :: rest) with
      | .ok p s1 => (protoLoop ops di n s1).bind fun ps s2 => .ok (p :: ps) s2
      | .err e => .err e
      | .fault => .fault

/-- A fully decoded dump. -/
structure Dump where
  header : Header
  protos : List Proto
  endByte : Nat
deriving DecidableEq

/-- Top-level dump decoder (`LuaJITDecode`): header, then — with the
byte order fixed once from the header's `be` flag — the proto sequence
up to the peeked 0 byte, then that terminator byte consumed as its own
field. -/
def LuaJITDecode (ops : List OpInfo) (s : List Nat) : DRes Dump :=
  (LuaJITDecodeHeader s).bind fun hdr s1 =>
  (protoLoop ops ⟨hdr.strip, hdr.be⟩ (s1.length + 1) s1).bind fun ps s2 =>
  (readU8 s2).bind fun e s3 =>
  .ok ⟨hdr, ps, e⟩ s3

/-!
Helper lemmas: inversion of `DRes.bind`, the fact that every decode
routine only consumes a prefix of its input (its rest is a suffix), the
strict consumption of `uleb` and `LuaJITDecodeProto`, and fault-freedom
of the primitives.
-/

theorem DRes.bind_eq_ok {α β : Type} {r : DRes α} {f : α → List Nat → DRes β}
    {b : β} {s : List Nat} :
    r.bind f = .ok b s ↔ ∃ a s1, r = .ok a s1 ∧ f a s1 = .ok b s := by
  cases r with
  | ok a s1 =>
    simp only [DRes.bind, DRes.ok.injEq]
    constructor
    · intro h
      exact ⟨a, s1, ⟨rfl, rfl⟩, h⟩
    · rintro ⟨a2, s2, ⟨rfl, rfl⟩, h⟩
      exact h
  | err e => simp [DRes.bind]
  | fault => simp [DRes.bind]

theorem readU8_sfx {s s1 : List Nat} {b : Nat} (h : readU8 s = .ok b s1) : s1 <:+ s := by
  cases s with
  | nil => simp [readU8] at h
  | cons x xs =>
    simp [readU8] at h
    exact h.2 ▸ ⟨[x], rfl⟩

theorem readU16_sfx {be : Bool} {s s1 : List Nat} {v : Nat}
    (h : readU16 be s = .ok v s1) : s1 <:+ s := by
  match s with
  | [] => simp [readU16] at h
  | [x] => simp [readU16] at h
  | x :: y :: xs =>
    simp [readU16] at h
    exact h.2 ▸ ⟨[x, y], rfl⟩

theorem readBytes_sfx {n : Nat} {s s1 : List Nat} {bs : List Nat}
    (h : readBytes n s = .ok bs s1) : s1 <:+ s := by
  unfold readBytes at h
  split at h
  · simp at h
    exact h.2 ▸ List.drop_suffix n s
  · simp at h

theorem ulebRaw_sfx {s : List Nat} : ∀ {v : Nat} {s1 : List Nat},
    ulebRaw s = .ok v s1 → s1 <:+ s := by
  induction s with
  | nil => intro v s1 h; simp [ulebRaw] at h
  | cons b rest ih =>
    intro v s1 h
    unfold ulebRaw at h
    split at h
    · simp at h
      exact h.2 ▸ ⟨[b], rfl⟩
    · rcases DRes.bind_eq_ok.mp h with ⟨w, t, h1, h2⟩
      simp at h2
      exact h2.2 ▸ ((ih h1).trans ⟨[b], rfl⟩)

theorem ulebRaw_len {s : List Nat} : ∀ {v : Nat} {s1 : List Nat},
    ulebRaw s = .ok v s1 → s1.length < s.length := by
  induction s with
  | nil => intro v s1 h; simp [ulebRaw] at h
  | cons b rest ih =>
    intro v s1 h
    unfold ulebRaw at h
    split at h
    · simp at h
      rw [← h.2]
      simp
    · rcases DRes.bind_eq_ok.mp h with ⟨w, t, h1, h2⟩
      simp at h2
      rw [← h2.2]
      exact Nat.lt_trans (ih h1) (by simp)

theorem uleb_sfx {s s1 : List Nat} {v : Nat} (h : uleb s = .ok v s1) : s1 <:+ s := by
  rcases DRes.bind_eq_ok.mp h with ⟨w, t, h1, h2⟩
  simp at h2
  exact h2.2 ▸ ulebRaw_sfx h1

theorem uleb_len {s s1 : List Nat} {v : Nat} (h : uleb s = .ok v s1) :
    s1.length < s.length := by
  rcases DRes.bind_eq_ok.mp h with ⟨w, t, h1, h2⟩
  simp at h2
  exact h2.2 ▸ ulebRaw_len h1

theorem fieldU8Mapped_sfx {m : UintS → UintS × Option DErr} {s s1 : List Nat} {v : Nat}
    (h : fieldU8Mapped m s = .ok v s1) : s1 <:+ s := by
  rcases DRes.bind_eq_ok.mp h with ⟨w, t, h1, h2⟩
  split at h2
  · simp at h2
    exact h2.2 ▸ readU8_sfx h1
  · simp at h2

theorem fieldU16Mapped_sfx {m : UintS → UintS × Option DErr} {be : Bool}
    {s s1 : List Nat} {v : Nat}
    (h : fieldU16Mapped m be s = .ok v s1) : s1 <:+ s := by
  rcases DRes.bind_eq_ok.mp h with ⟨w, t, h1, h2⟩
  split at h2
  · simp at h2
    exact h2.2 ▸ readU16_sfx h1
  · simp at h2

theorem fieldULEBMapped_sfx {m : UintS → UintS × Option DErr} {s s1 : List Nat} {v : Nat}
    (h : fieldULEBMapped m s = .ok v s1) : s1 <:+ s := by
  rcases DRes.bind_eq_ok.mp h with ⟨w, t, h1, h2⟩
  split at h2
  · simp at h2
    exact h2.2 ▸ uleb_sfx h1
  · simp at h2

theorem LuaJITDecodeBCIns_sfx {ops : List OpInfo} {be : Bool} {s s1 : List Nat} {i : Ins}
    (h : LuaJITDecodeBCIns ops be s = .ok i s1) : s1 <:+ s := by
  unfold LuaJITDecodeBCIns at h
  rcases DRes.bind_eq_ok.mp h with ⟨op, t1, h1, h2⟩
  rcases DRes.bind_eq_ok.mp h2 with ⟨a, t2, h3, h4⟩
  have hsfx : t2 <:+ s := (readU8_sfx h3).trans (fieldU8Mapped_sfx h1)
  split at h4
  · split at h4
    · split at h4
      · rcases DRes.bind_eq_ok.mp h4 with ⟨j, t3, h5, h6⟩
        simp at h6
        exact h6.2 ▸ ((fieldU16Mapped_sfx h5).trans hsfx)
      · rcases DRes.bind_eq_ok.mp h4 with ⟨d, t3, h5, h6⟩
        simp at h6
        exact h6.2 ▸ ((readU16_sfx h5).trans hsfx)
    · rcases DRes.bind_eq_ok.mp h4 with ⟨c, t3, h5, h6⟩
      rcases DRes.bind_eq_ok.mp h6 with ⟨b, t4, h7, h8⟩
      simp at h8
      exact h8.2 ▸ (((readU8_sfx h7).trans (readU8_sfx h5)).trans hsfx)
  · cases h4

theorem decodeN_sfx {α : Type} {f : List Nat → DRes α}
    (hf : ∀ {s : List Nat} {a : α} {s1 : List Nat}, f s = .ok a s1 → s1 <:+ s) :
    ∀ {n : Nat} {s : List Nat} {as : List α} {s1 : List Nat},
      decodeN f n s = .ok as s1 → s1 <:+ s := by
  intro n
  induction n with
  | zero =>
    intro s as s1 h
    simp [decodeN] at h
    exact h.2 ▸ List.suffix_refl s
  | succ n ih =>
    intro s as s1 h
    unfold decodeN at h
    rcases DRes.bind_eq_ok.mp h with ⟨a, t1, h1, h2⟩
    rcases DRes.bind_eq_ok.mp h2 with ⟨as2, t2, h3, h4⟩
    simp at h4
    exact h4.2 ▸ ((ih h3).trans (hf h1))

theorem LuaJITDecodeKTabK_sfx {s s1 : List Nat} {kv : KTabKV}
    (h : LuaJITDecodeKTabK s = .ok kv s1) : s1 <:+ s := by
  unfold LuaJITDecodeKTabK at h
  rcases DRes.bind_eq_ok.mp h with ⟨tag, t1, h1, h2⟩
  have htag : t1 <:+ s := fieldULEBMapped_sfx h1
  split at h2
  · rcases DRes.bind_eq_ok.mp h2 with ⟨bs, t2, h3, h4⟩
    simp at h4
    exact h4.2 ▸ ((readBytes_sfx h3).trans htag)
  · split at h2
    · rcases DRes.bind_eq_ok.mp h2 with ⟨n, t2, h3, h4⟩
      simp at h4
      exact h4.2 ▸ ((uleb_sfx h3).trans htag)
    · split at h2
      · rcases DRes.bind_eq_ok.mp h2 with ⟨lo, t2, h3, h4⟩
        rcases DRes.bind_eq_ok.mp h4 with ⟨hi, t3, h5, h6⟩
        simp at h6
        exact h6.2 ▸ (((uleb_sfx h5).trans (uleb_sfx h3)).trans htag)
      · simp at h2
        exact h2.2 ▸ htag

theorem decodeKTabKPair_sfx {s s1 : List Nat} {p : KTabKV × KTabKV}
    (h : decodeKTabKPair s = .ok p s1) : s1 <:+ s := by
  unfold decodeKTabKPair at h
  rcases DRes.bind_eq_ok.mp h with ⟨k, t1, h1, h2⟩
  rcases DRes.bind_eq_ok.mp h2 with ⟨v, t2, h3, h4⟩
  simp at h4
  exact h4.2 ▸ ((LuaJITDecodeKTabK_sfx h3).trans (LuaJITDecodeKTabK_sfx h1))

theorem LuaJITDecodeKTab_sfx {s s1 : List Nat} {t : KTab}
    (h : LuaJITDecodeKTab s = .ok t s1) : s1 <:+ s := by
  unfold LuaJITDecodeKTab at h
  rcases DRes.bind_eq_ok.mp h with ⟨narray, t1, h1, h2⟩
  rcases DRes.bind_eq_ok.mp h2 with ⟨nhash, t2, h3, h4⟩
  rcases DRes.bind_eq_ok.mp h4 with ⟨ka, t3, h5, h6⟩
  rcases DRes.bind_eq_ok.mp h6 with ⟨kh, t4, h7, h8⟩
  simp at h8
  refine h8.2 ▸ ?_
  exact ((decodeN_sfx (fun h => decodeKTabKPair_sfx h) h7).trans
    (decodeN_sfx (fun h => LuaJITDecodeKTabK_sfx h) h5)).trans
    ((uleb_sfx h3).trans (uleb_sfx h1))

theorem LuaJITDecodeKGC_sfx {s s1 : List Nat} {k : KGCV}
    (h : LuaJITDecodeKGC s = .ok k s1) : s1 <:+ s := by
  unfold LuaJITDecodeKGC at h
  rcases DRes.bind_eq_ok.mp h with ⟨tag, t1, h1, h2⟩
  have htag : t1 <:+ s := fieldULEBMapped_sfx h1
  split at h2
  · rcases DRes.bind_eq_ok.mp h2 with ⟨bs, t2, h3, h4⟩
    simp at h4
    exact h4.2 ▸ ((readBytes_sfx h3).trans htag)
  · split at h2
    · rcases DRes.bind_eq_ok.mp h2 with ⟨t, t2, h3, h4⟩
      simp at h4
      exact h4.2 ▸ ((LuaJITDecodeKTab_sfx h3).trans htag)
    · split at h2
      · rcases DRes.bind_eq_ok.mp h2 with ⟨lo, t2, h3, h4⟩
        rcases DRes.bind_eq_ok.mp h4 with ⟨hi, t3, h5, h6⟩
        simp at h6
        exact h6.2 ▸ (((uleb_sfx h5).trans (uleb_sfx h3)).trans htag)
      · split at h2
        · rcases DRes.bind_eq_ok.mp h2 with ⟨lo, t2, h3, h4⟩
          rcases DRes.bind_eq_ok.mp h4 with ⟨hi, t3, h5, h6⟩
          simp at h6
          exact h6.2 ▸ (((uleb_sfx h5).trans (uleb_sfx h3)).trans htag)
        · split at h2
          · rcases DRes.bind_eq_ok.mp h2 with ⟨rlo, t2, h3, h4⟩
            rcases DRes.bind_eq_ok.mp h4 with ⟨rhi, t3, h5, h6⟩
            rcases DRes.bind_eq_ok.mp h6 with ⟨ilo, t4, h7, h8⟩
            rcases DRes.bind_eq_ok.mp h8 with ⟨ihi, t5, h9, h10⟩
            simp at h10
            exact h10.2 ▸ ((((uleb_sfx h9).trans (uleb_sfx h7)).trans
              ((uleb_sfx h5).trans (uleb_sfx h3))).trans htag)
          · simp at h2
            exact h2.2 ▸ htag

theorem LuaJITDecodeKNum_sfx {s s1 : List Nat} {k : KNumV}
    (h : LuaJITDecodeKNum s = .ok k s1) : s1 <:+ s := by
  unfold LuaJITDecodeKNum at h
  rcases DRes.bind_eq_ok.mp h with ⟨lo, t1, h1, h2⟩
  split at h2
  · simp at h2
    exact h2.2 ▸ uleb_sfx h1
  · rcases DRes.bind_eq_ok.mp h2 with ⟨hi, t2, h3, h4⟩
    simp at h4
    exact h4.2 ▸ ((uleb_sfx h3).trans (uleb_sfx h1))

theorem decodePHead_sfx {di : DumpInfo} {s s1 : List Nat} {ph : PHead}
    (h : decodePHead di s = .ok ph s1) : s1 <:+ s := by
  unfold decodePHead at h
  rcases DRes.bind_eq_ok.mp h with ⟨flags, t1, h1, h2⟩
  rcases DRes.bind_eq_ok.mp h2 with ⟨numparams, t2, h3, h4⟩
  rcases DRes.bind_eq_ok.mp h4 with ⟨framesize, t3, h5, h6⟩
  rcases DRes.bind_eq_ok.mp h6 with ⟨numuv, t4, h7, h8⟩
  rcases DRes.bind_eq_ok.mp h8 with ⟨numkgc, t5, h9, h10⟩
  rcases DRes.bind_eq_ok.mp h10 with ⟨numkn, t6, h11, h12⟩
  rcases DRes.bind_eq_ok.mp h12 with ⟨numbc, t7, h13, h14⟩
  have h7s : t7 <:+ s :=
    ((((((uleb_sfx h13).trans (uleb_sfx h11)).trans (uleb_sfx h9)).trans
      (readU8_sfx h7)).trans ((readU8_sfx h5).trans (readU8_sfx h3))).trans (readU8_sfx h1))
  split at h14
  · simp at h14
    exact h14.2 ▸ h7s
  · rcases DRes.bind_eq_ok.mp h14 with ⟨debuglen, t8, h15, h16⟩
    split at h16
    · rcases DRes.bind_eq_ok.mp h16 with ⟨firstline, t9, h17, h18⟩
      rcases DRes.bind_eq_ok.mp h18 with ⟨numline, t10, h19, h20⟩
      simp at h20
      exact h20.2 ▸ ((((uleb_sfx h19).trans (uleb_sfx h17)).trans (uleb_sfx h15)).trans h7s)
    · simp at h16
      exact h16.2 ▸ ((uleb_sfx h15).trans h7s)

theorem decodePData_sfx {ops : List OpInfo} {di : DumpInfo} {s s1 : List Nat} {pd : PData}
    (h : decodePData ops di s = .ok pd s1) : s1 <:+ s := by
  unfold decodePData at h
  rcases DRes.bind_eq_ok.mp h with ⟨ph, t1, h1, h2⟩
  rcases DRes.bind_eq_ok.mp h2 with ⟨bcs, t2, h3, h4⟩
  rcases DRes.bind_eq_ok.mp h4 with ⟨uvs, t3, h5, h6⟩
  rcases DRes.bind_eq_ok.mp h6 with ⟨kgcs, t4, h7, h8⟩
  rcases DRes.bind_eq_ok.mp h8 with ⟨kns, t5, h9, h10⟩
  have h5s : t5 <:+ s :=
    ((((decodeN_sfx (fun h => LuaJITDecodeKNum_sfx h) h9).trans
      (decodeN_sfx (fun h => LuaJITDecodeKGC_sfx h) h7)).trans
      ((decodeN_sfx (fun h => readU16_sfx h) h5).trans
      (decodeN_sfx (fun h => LuaJITDecodeBCIns_sfx h) h3))).trans (decodePHead_sfx h1))
  split at h10
  · simp at h10
    exact h10.2 ▸ h5s
  · rcases DRes.bind_eq_ok.mp h10 with ⟨dbs, t6, h11, h12⟩
    simp at h12
    exact h12.2 ▸ ((decodeN_sfx (fun h => readU8_sfx h) h11).trans h5s)

theorem LuaJITDecodeProto_len {ops : List OpInfo} {di : DumpInfo}
    {s s1 : List Nat} {p : Proto}
    (h : LuaJITDecodeProto ops di s = .ok p s1) : s1.length < s.length := by
  unfold LuaJITDecodeProto at h
  rcases DRes.bind_eq_ok.mp h with ⟨len, t1, h1, h2⟩
  cases hm : decodePData ops di (t1.take len) with
  | ok pd w =>
    rw [hm] at h2
    simp at h2
    have hw := (decodePData_sfx hm).length_le
    have hlen := uleb_len h1
    rw [← h2.2]
    simp only [List.length_append, List.length_take, List.length_drop] at *
    omega
  | err e => rw [hm] at h2; cases h2
  | fault => rw [hm] at h2; cases h2

theorem readU8_ne_fault (s : List Nat) : readU8 s ≠ .fault := by
  cases s <;> simp [readU8]

theorem readU16_ne_fault (be : Bool) (s : List Nat) : readU16 be s ≠ .fault := by
  match s with
  | [] => simp [readU16]
  | [x] => simp [readU16]
  | x :: y :: xs => simp [readU16]

theorem fieldU8Mapped_ne_fault (m : UintS → UintS × Option DErr) (s : List Nat) :
    fieldU8Mapped m s ≠ .fault := by
  unfold fieldU8Mapped
  cases hr : readU8 s with
  | ok v s1 =>
    simp only [DRes.bind]
    rcases m ⟨v, none⟩ with ⟨u, e⟩
    cases e <;> simp
  | err e => simp [DRes.bind]
  | fault => exact absurd hr (readU8_ne_fault s)

theorem fieldU16Mapped_ne_fault (m : UintS → UintS × Option DErr) (be : Bool)
    (s : List Nat) : fieldU16Mapped m be s ≠ .fault := by
  unfold fieldU16Mapped
  cases hr : readU16 be s with
  | ok v s1 =>
    simp only [DRes.bind]
    rcases m ⟨v, none⟩ with ⟨u, e⟩
    cases e <;> simp
  | err e => simp [DRes.bind]
  | fault => exact absurd hr (readU16_ne_fault be s)

/-- A successful opcode-byte read through the modelled `bcOpSyms`
decorator implies the opcode is inside the table. -/
theorem bcOpSyms_ok_lt {ops : List OpInfo} {s : List Nat} {v : Nat} {s1 : List Nat}
    (h : fieldU8Mapped (bcOpSymsMap ops) s = .ok v s1) : v < ops.length := by
  rcases DRes.bind_eq_ok.mp h with ⟨b, t, h1, h2⟩
  unfold bcOpSymsMap at h2
  by_cases hb : (⟨b, none⟩ : UintS).actual < ops.length
  · rw [if_pos hb] at h2
    simp at h2
    exact h2.1 ▸ hb
  · rw [if_neg hb] at h2
    simp at h2

/-- The instruction decoder never reaches its fault arm: the modelled
bounds-checked opcode lookup rejects out-of-range opcodes first. -/
theorem LuaJITDecodeBCIns_ne_fault (ops : List OpInfo) (be : Bool) (s : List Nat) :
    LuaJITDecodeBCIns ops be s ≠ .fault := by
  unfold LuaJITDecodeBCIns
  cases hr : fieldU8Mapped (bcOpSymsMap ops) s with
  | err e => simp [DRes.bind]
  | fault => exact absurd hr (fieldU8Mapped_ne_fault _ s)
  | ok v s1 =>
    have hv := bcOpSyms_ok_lt hr
    simp only [DRes.bind]
    cases h2 : readU8 s1 with
    | err e => simp [DRes.bind]
    | fault => exact absurd h2 (readU8_ne_fault s1)
    | ok a s2 =>
      simp only [DRes.bind]
      rw [dif_pos hv]
      split
      · split
        · cases h3 : fieldU16Mapped jumpBiasMapUint be s2 with
          | ok j s3 => simp [DRes.bind]
          | err e => simp [DRes.bind]
          | fault => exact absurd h3 (fieldU16Mapped_ne_fault _ be s2)
        · cases h3 : readU16 be s2 with
          | ok d s3 => simp [DRes.bind]
          | err e => simp [DRes.bind]
          | fault => exact absurd h3 (readU16_ne_fault be s2)
      · cases h3 : readU8 s2 with
        | ok c s3 =>
          simp only [DRes.bind]
          cases h4 : readU8 s3 with
          | ok b s4 => simp [DRes.bind]
          | err e => simp [DRes.bind]
          | fault => exact absurd h4 (readU8_ne_fault s3)
        | err e => simp [DRes.bind]
        | fault => exact absurd h3 (readU8_ne_fault s2)

/-!
Claim theorems.
-/

/-- C9: `LuaJITDecodeCplx` and `LuaJITDecodeKNum` are extensionally
equal: on every cursor state both consume the same bytes and return the
same value. -/
theorem c9_cplx_knum_equal : ∀ s : List Nat, LuaJITDecodeCplx s = LuaJITDecodeKNum s :=
  fun _ => rfl

/-- C10: each of the three scalar-transform hooks — the jump-bias
corrector and the two tag-to-symbol mappers — returns a nil error on
every input, so the host toolkit's transform-error branch is unreachable:
a mapped field read behaves exactly like the raw read followed by the
pure value transform, and decoration can never abort a decode. -/
theorem c10_mapuint_no_error :
    (∀ u : UintS, (jumpBiasMapUint u).2 = none ∧ (ktabTypeMapUint u).2 = none
      ∧ (kgcTypeMapUint u).2 = none)
    ∧ (∀ (be : Bool) (s : List Nat), fieldU16Mapped jumpBiasMapUint be s =
        (readU16 be s).bind fun v s1 => .ok ((jumpBiasMapUint ⟨v, none⟩).1).actual s1)
    ∧ (∀ s : List Nat, fieldULEBMapped ktabTypeMapUint s =
        (uleb s).bind fun v s1 => .ok v s1)
    ∧ (∀ s : List Nat, fieldULEBMapped kgcTypeMapUint s =
        (uleb s).bind fun v s1 => .ok v s1) :=
  ⟨fun _ => ⟨rfl, rfl, rfl⟩, fun _ _ => rfl, fun _ => rfl, fun _ => rfl⟩

/-- C1 (amended): the numeric-constant decoder reads one ULEB128 value
`lo`; when its least-significant bit is 0 the result is the plain
unsigned integer `lo >> 1` and nothing further is read; when the bit is
1 it reads a second ULEB128 value `hi` and the result is the double
whose 64-bit pattern is `(hi << 32) + (lo >> 1)` reduced mod 2^64 (the
source combines the halves with a wrapping addition, which agrees with
the claimed bitwise-or exactly when `lo < 2^33`). -/
theorem c1_knum_parity : ∀ (s : List Nat) (lo : Nat) (s1 : List Nat),
    uleb s = .ok lo s1 →
    (lo &&& 1 = 0 → LuaJITDecodeKNum s = .ok (.uint (lo >>> 1)) s1)
    ∧ (lo &&& 1 = 1 → ∀ (hi : Nat) (s2 : List Nat), uleb s1 = .ok hi s2 →
        LuaJITDecodeKNum s = .ok (.num (u64tof64 ((hi <<< 32) + (lo >>> 1)))) s2) := by
  intro s lo s1 h
  constructor
  · intro heven
    unfold LuaJITDecodeKNum
    rw [h]
    simp only [DRes.bind]
    rw [if_pos heven]
  · intro hodd hi s2 h2
    unfold LuaJITDecodeKNum
    rw [h]
    simp only [DRes.bind]
    rw [if_neg (by omega : ¬ lo &&& 1 = 0), h2]

/-- C1 witness: the odd branch of `c1_knum_parity` evaluated on the
two-byte stream `[5, 0]` (lo = 5, hi = 0). -/
theorem c1_knum_parity_witness : uleb [5, 0] = .ok 5 [0] ∧
    LuaJITDecodeKNum [5, 0] = .ok (.num (u64tof64 ((0 <<< 32) + (5 >>> 1)))) [] :=
  ⟨by decide, (c1_knum_parity [5, 0] 5 [0] (by decide)).2 (by decide) 0 [] (by decide)⟩

/-- C1 counterexample: for lo = 2^33 + 1 (odd) and hi = 1 the decoder
returns the double with pattern `(1 << 32) + 2^32 = 2^33` (wrapping
addition), while the claimed pattern `(1 << 32) ||| (lo >> 1)` is 2^32:
the claimed bitwise-or combination differs from the code at this
input. -/
theorem c1_knum_parity_counterexample :
    LuaJITDecodeKNum [0x81, 0x80, 0x80, 0x80, 0x20, 1] =
      .ok (.num (u64tof64 ((1 <<< 32) + (8589934593 >>> 1)))) []
    ∧ u64tof64 ((1 <<< 32) + (8589934593 >>> 1))
        ≠ u64tof64 ((1 <<< 32) ||| (8589934593 >>> 1)) := by
  constructor
  · decide
  · decide

/-- C7 (amended): the GC-constant decoder reads a ULEB128 type tag and
then: tag 0 → no payload; tag 1 → one nested table constant; tag 2 → two
ULEB128 values combined as `(hi << 32) + lo` mod 2^64 exposed as a signed
64-bit integer; tag 3 → the same combination exposed unsigned; tag 4 →
two independent (lo, hi) pairs each reinterpreted as a double (real then
imag); tag ≥ 5 → exactly tag − 5 raw bytes as a string.  (The source
combines the halves with a wrapping addition, which agrees with the
claimed bitwise-or exactly when `lo < 2^32`.) -/
theorem c7_kgc_payloads : ∀ (s : List Nat) (tag : Nat) (s1 : List Nat),
    uleb s = .ok tag s1 →
    (5 ≤ tag → LuaJITDecodeKGC s =
      (readBytes (tag - 5) s1).bind fun bs s2 => .ok ⟨tag, .str bs⟩ s2)
    ∧ (tag = 0 → LuaJITDecodeKGC s = .ok ⟨tag, .none⟩ s1)
    ∧ (tag = 1 → LuaJITDecodeKGC s =
      (LuaJITDecodeKTab s1).bind fun t s2 => .ok ⟨tag, .tab t⟩ s2)
    ∧ (tag = 2 → LuaJITDecodeKGC s =
      (uleb s1).bind fun lo s2 => (uleb s2).bind fun hi s3 =>
        .ok ⟨tag, .i64 (toInt64 ((hi <<< 32) + lo))⟩ s3)
    ∧ (tag = 3 → LuaJITDecodeKGC s =
      (uleb s1).bind fun lo s2 => (uleb s2).bind fun hi s3 =>
        .ok ⟨tag, .u64 (((hi <<< 32) + lo) % 2 ^ 64)⟩ s3)
    ∧ (tag = 4 → LuaJITDecodeKGC s =
      (uleb s1).bind fun rlo s2 => (uleb s2).bind fun rhi s3 =>
      (uleb s3).bind fun ilo s4 => (uleb s4).bind fun ihi s5 =>
        .ok ⟨tag, .complex (u64tof64 ((rhi <<< 32) + rlo))
                           (u64tof64 ((ihi <<< 32) + ilo))⟩ s5) := by
  intro s tag s1 h
  have hbase : LuaJITDecodeKGC s =
      (if 5 ≤ tag then
        (readBytes (tag - 5) s1).bind fun bs s2 => .ok ⟨tag, .str bs⟩ s2
      else if tag = 1 then
        (LuaJITDecodeKTab s1).bind fun t s2 => .ok ⟨tag, .tab t⟩ s2
      else if tag = 2 then
        (uleb s1).bind fun lo s2 => (uleb s2).bind fun hi s3 =>
          .ok ⟨tag, .i64 (toInt64 ((hi <<< 32) + lo))⟩ s3
      else if tag = 3 then
        (uleb s1).bind fun lo s2 => (uleb s2).bind fun hi s3 =>
          .ok ⟨tag, .u64 (((hi <<< 32) + lo) % 2 ^ 64)⟩ s3
      else if tag = 4 then
        (uleb s1).bind fun rlo s2 => (uleb s2).bind fun rhi s3 =>
        (uleb s3).bind fun ilo s4 => (uleb s4).bind fun ihi s5 =>
          .ok ⟨tag, .complex (u64tof64 ((rhi <<< 32) + rlo))
                             (u64tof64 ((ihi <<< 32) + ilo))⟩ s5
      else .ok ⟨tag, .none⟩ s1) := by
    unfold LuaJITDecodeKGC fieldULEBMapped
    rw [h]
    simp only [DRes.bind, kgcTypeMapUint]
  refine ⟨fun h5 => ?_, fun h0 => ?_, fun h1 => ?_, fun h2 => ?_, fun h3 => ?_,
    fun h4 => ?_⟩
  · rw [hbase, if_pos h5]
  · subst h0; rw [hbase]; norm_num
  · subst h1; rw [hbase]; norm_num
  · subst h2; rw [hbase]; norm_num
  · subst h3; rw [hbase]; norm_num
  · subst h4; rw [hbase]; norm_num

/-- C7 witness: the i64 branch of `c7_kgc_payloads` evaluated on the
stream `[2, 1, 1]` (tag 2, lo = 1, hi = 1). -/
theorem c7_kgc_payloads_witness : LuaJITDecodeKGC [2, 1, 1] =
    (uleb [1, 1]).bind fun lo s2 => (uleb s2).bind fun hi s3 =>
      .ok ⟨2, .i64 (toInt64 ((hi <<< 32) + lo))⟩ s3 :=
  (c7_kgc_payloads [2, 1, 1] 2 [1, 1] (by decide)).2.2.2.1 rfl

/-- C7 counterexample: for tag 2 with lo = 2^32 and hi = 1 the code
exposes `int64((1 << 32) + 2^32) = 2^33`, while the claimed combination
`(1 << 32) ||| 2^32` is 2^32: the claimed bitwise-or combination differs
from the code at this input. -/
theorem c7_kgc_payloads_counterexample :
    LuaJITDecodeKGC [2, 0x80, 0x80, 0x80, 0x80, 0x10, 1] =
      .ok ⟨2, .i64 (toInt64 ((1 <<< 32) + 4294967296))⟩ []
    ∧ toInt64 ((1 <<< 32) + 4294967296) ≠ toInt64 ((1 <<< 32) ||| 4294967296) := by
  constructor
  · decide
  · decide

/-- Wrapping subtraction of the 0x8000 jump bias on a 16-bit raw value,
read back as a two's-complement signed 64-bit integer, is exact
subtraction. -/
theorem toInt64_sub_bias {raw : Nat} (h : raw < 65536) :
    toInt64 ((raw + (2 ^ 64 - 0x8000)) % 2 ^ 64) = (raw : Int) - 0x8000 := by
  unfold toInt64
  have h64 : (2 : Nat) ^ 64 = 18446744073709551616 := by norm_num
  have h63 : (2 : Nat) ^ 63 = 9223372036854775808 := by norm_num
  rw [h64, h63]
  split <;> push_cast <;> omega

/-- C2: for an instruction whose opcode is flagged as a jump (and hence
uses the wide operand), the exposed operand is the raw 16-bit value minus
0x8000 with `uint64` wraparound, which read as a signed quantity is
exactly raw − 0x8000; in particular the jump-bias corrector sends raw
0x8000 to 0, raw 0x8005 to 5 and raw 0x7FFF to −1. -/
theorem c2_jump_bias : ∀ (ops : List OpInfo) (be : Bool) (op a b1 b2 : Nat)
    (rest : List Nat) (h : op < ops.length),
    (ops.get ⟨op, h⟩).hasD = true → (ops.get ⟨op, h⟩).isJump = true →
    b1 < 256 → b2 < 256 →
    LuaJITDecodeBCIns ops be (op :: a :: b1 :: b2 :: rest) =
      .ok ⟨op, a, .j (((if be then b1 * 256 + b2 else b2 * 256 + b1)
        + (2 ^ 64 - 0x8000)) % 2 ^ 64)⟩ rest
    ∧ toInt64 (((if be then b1 * 256 + b2 else b2 * 256 + b1)
        + (2 ^ 64 - 0x8000)) % 2 ^ 64)
        = ((if be then b1 * 256 + b2 else b2 * 256 + b1 : Nat) : Int) - 0x8000
    ∧ toInt64 ((jumpBiasMapUint ⟨0x8000, none⟩).1).actual = 0
    ∧ toInt64 ((jumpBiasMapUint ⟨0x8005, none⟩).1).actual = 5
    ∧ toInt64 ((jumpBiasMapUint ⟨0x7FFF, none⟩).1).actual = -1 := by
  intro ops be op a b1 b2 rest h hd hj hb1 hb2
  have hd2 : ops[op].hasD = true := hd
  have hj2 : ops[op].isJump = true := hj
  refine ⟨?_, ?_, by decide, by decide, by decide⟩
  · simp [LuaJITDecodeBCIns, fieldU8Mapped, readU8, DRes.bind, bcOpSymsMap,
      fieldU16Mapped, readU16, jumpBiasMapUint, h, hd2, hj2]
  · refine toInt64_sub_bias ?_
    cases be <;> simp <;> omega

/-- C2 witness: a one-entry jump-opcode table, little-endian, raw wide
operand 0x0080. -/
theorem c2_jump_bias_witness :
    LuaJITDecodeBCIns [⟨true, true⟩] false [0, 7, 128, 0] =
      .ok ⟨0, 7, .j (((if false then 128 * 256 + 0 else 0 * 256 + 128)
        + (2 ^ 64 - 0x8000)) % 2 ^ 64)⟩ []
    ∧ toInt64 (((if false then 128 * 256 + 0 else 0 * 256 + 128)
        + (2 ^ 64 - 0x8000)) % 2 ^ 64)
        = ((if false then 128 * 256 + 0 else 0 * 256 + 128 : Nat) : Int) - 0x8000
    ∧ toInt64 ((jumpBiasMapUint ⟨0x8000, none⟩).1).actual = 0
    ∧ toInt64 ((jumpBiasMapUint ⟨0x8005, none⟩).1).actual = 5
    ∧ toInt64 ((jumpBiasMapUint ⟨0x7FFF, none⟩).1).actual = -1 :=
  c2_jump_bias [⟨true, true⟩] false 0 7 128 0 [] (by decide) (by decide) (by decide)
    (by decide) (by decide)

/-- C3: an opcode byte with no entry in the opcode table makes the
instruction decode fail with an `UnknownOpcode` error, and the
instruction decoder never faults on any input.  (The opcode table and its
`bcOpSyms` decorator are repository code outside the given source,
modelled from the spec's bounds-checked-lookup contract.) -/
theorem c3_unknown_opcode : ∀ (ops : List OpInfo) (be : Bool) (s : List Nat),
    LuaJITDecodeBCIns ops be s ≠ .fault
    ∧ (∀ (op : Nat) (rest : List Nat), s = op :: rest → ops.length ≤ op →
        LuaJITDecodeBCIns ops be s = .err .unknownOpcode) := by
  intro ops be s
  refine ⟨LuaJITDecodeBCIns_ne_fault ops be s, ?_⟩
  rintro op rest rfl hle
  unfold LuaJITDecodeBCIns fieldU8Mapped bcOpSymsMap
  simp [readU8, DRes.bind, Nat.not_lt.mpr hle]

/-- C3 witness: opcode byte 7 against an empty opcode table. -/
theorem c3_unknown_opcode_witness :
    LuaJITDecodeBCIns [] false [7, 1] ≠ .fault
    ∧ LuaJITDecodeBCIns [] false [7, 1] = .err .unknownOpcode :=
  ⟨(c3_unknown_opcode [] false [7, 1]).1,
   (c3_unknown_opcode [] false [7, 1]).2 7 [1] rfl (by decide)⟩

/-- C8: an input of at least 3 bytes whose first 3 bytes are not
0x1B 0x4C 0x4A fails both header and whole-dump decode with an
`InvalidFormat` error (and hence no partial tree: an error result
carries no decoded value); when the first 3 bytes match, header decoding
proceeds with the bytes after the magic. -/
theorem c8_magic : ∀ (ops : List OpInfo) (s : List Nat),
    (3 ≤ s.length → s.take 3 ≠ [0x1B, 0x4C, 0x4A] →
      LuaJITDecodeHeader s = .err .invalidFormat
      ∧ LuaJITDecode ops s = .err .invalidFormat)
    ∧ (s.take 3 = [0x1B, 0x4C, 0x4A] →
      LuaJITDecodeHeader s = decodeHeaderBody (s.drop 3)) := by
  intro ops s
  constructor
  · intro hlen hne
    have hh : LuaJITDecodeHeader s = .err .invalidFormat := by
      unfold LuaJITDecodeHeader
      rw [if_neg (by omega), if_neg hne]
    refine ⟨hh, ?_⟩
    unfold LuaJITDecode
    rw [hh]
    rfl
  · intro hmagic
    have hlen3 : ¬ s.length < 3 := by
      have hl := congrArg List.length hmagic
      simp [List.length_take] at hl
      omega
    unfold LuaJITDecodeHeader
    rw [if_neg hlen3, if_pos hmagic]

/-- C8 witness: a non-magic 4-byte input fails with `InvalidFormat`; the
magic prefix 0x1B 0x4C 0x4A proceeds into the header body. -/
theorem c8_magic_witness :
    (LuaJITDecodeHeader [0, 1, 2, 3] = .err .invalidFormat
      ∧ LuaJITDecode [] [0, 1, 2, 3] = .err .invalidFormat)
    ∧ LuaJITDecodeHeader [27, 76, 74, 9] = decodeHeaderBody [9] :=
  ⟨(c8_magic [] [0, 1, 2, 3]).1 (by decide) (by decide),
   (c8_magic [] [27, 76, 74, 9]).2 (by decide)⟩

/-- C4 (amended): for every prototype, all reads after the length field
are confined to the `length`-byte boundary: the bytes beyond the boundary
are never consumed (the post-boundary suffix survives into the returned
cursor), and a read past the boundary inside the window surfaces as a
structural decode error that propagates with no partial-proto result.  On
success the cursor sits at or before the boundary; it sits exactly at the
boundary only when the declared length equals the size of the proto's
contents. -/
theorem c4_proto_boundary : ∀ (ops : List OpInfo) (di : DumpInfo) (s : List Nat),
    (∀ (p : Proto) (s1 : List Nat), LuaJITDecodeProto ops di s = .ok p s1 →
      ∃ (len : Nat) (t : List Nat), uleb s = .ok len t
        ∧ s1 <:+ t ∧ t.drop len <:+ s1)
    ∧ (∀ (len : Nat) (t : List Nat) (e : DErr), uleb s = .ok len t →
        decodePData ops di (t.take len) = .err e →
        LuaJITDecodeProto ops di s = .err e) := by
  intro ops di s
  constructor
  · intro p s1 h
    unfold LuaJITDecodeProto at h
    rcases DRes.bind_eq_ok.mp h with ⟨len, t, h1, h2⟩
    cases hm : decodePData ops di (t.take len) with
    | ok pd w =>
      rw [hm] at h2
      simp at h2
      rcases decodePData_sfx hm with ⟨pre, hpre⟩
      refine ⟨len, t, h1, ?_, ?_⟩
      · rw [← h2.2]
        exact ⟨pre, by rw [← List.append_assoc, hpre, List.take_append_drop]⟩
      · rw [← h2.2]
        exact ⟨w, rfl⟩
    | err e => rw [hm] at h2; cases h2
    | fault => rw [hm] at h2; cases h2
  · intro len t e h1 h2
    unfold LuaJITDecodeProto
    rw [h1]
    simp only [DRes.bind]
    rw [h2]

/-- C4 witness: an exact-length proto (length 7, stripped, zero counts)
returns with the cursor at the boundary, and a proto whose window is too
short for its own header block fails with a structural error. -/
theorem c4_proto_boundary_witness :
    (∃ (len : Nat) (t : List Nat), uleb [7, 0, 0, 0, 0, 0, 0, 0] = .ok len t
      ∧ ([] : List Nat) <:+ t ∧ t.drop len <:+ ([] : List Nat))
    ∧ LuaJITDecodeProto [] ⟨true, false⟩ [3, 0, 0, 0, 7] = .err .eof :=
  ⟨(c4_proto_boundary [] ⟨true, false⟩ [7, 0, 0, 0, 0, 0, 0, 0]).1
      ⟨7, ⟨⟨0, 0, 0, 0, 0, 0, 0, 0, none⟩, [], [], [], [], none⟩⟩ [] (by decide),
   (c4_proto_boundary [] ⟨true, false⟩ [3, 0, 0, 0, 7]).2 3 [0, 0, 0, 7] .eof
      (by decide) (by decide)⟩

/-- C4 counterexample: a stripped proto declaring length 8 whose
contents occupy only 7 bytes decodes successfully, yet the cursor stops
one byte short of the boundary (the returned rest still holds the
window's last byte 170, while the boundary sits after it, at
`List.drop 8` of the post-length stream): the claim that on successful
return the cursor sits exactly at the boundary fails here. -/
theorem c4_proto_boundary_counterexample :
    LuaJITDecodeProto [] ⟨true, false⟩ [8, 0, 0, 0, 0, 0, 0, 0, 170] =
      .ok ⟨8, ⟨⟨0, 0, 0, 0, 0, 0, 0, 0, none⟩, [], [], [], [], none⟩⟩ [170]
    ∧ ([170] : List Nat) ≠ List.drop 8 [0, 0, 0, 0, 0, 0, 0, 170] := by
  constructor
  · decide
  · decide

/-- C5: after the header the dump decoder repeatedly peeks one byte
without advancing, stops when it is 0, otherwise decodes one prototype
and repeats; after the loop exactly one terminator byte is consumed as
its own field; and the minimal dump (header with name "t", zero protos,
terminator 0x00) decodes to an empty proto sequence with the terminator
as the final field and nothing left over. -/
theorem c5_proto_loop :
    (∀ (ops : List OpInfo) (di : DumpInfo) (n : Nat) (s : List Nat),
      s.head? = some 0 → protoLoop ops di (n + 1) s = .ok [] s)
    ∧ (∀ (ops : List OpInfo) (di : DumpInfo) (n : Nat) (b : Nat) (rest : List Nat),
      b ≠ 0 → protoLoop ops di (n + 1) (b :: rest) =
        (LuaJITDecodeProto ops di (b :: rest)).bind fun p s1 =>
          (protoLoop ops di n s1).bind fun ps s2 => .ok (p :: ps) s2)
    ∧ LuaJITDecode [] [27, 76, 74, 1, 0, 1, 116, 0] =
        .ok ⟨⟨1, 0, false, false, false, false, some [116]⟩, [], 0⟩ [] := by
  refine ⟨?_, ?_, by decide⟩
  · intro ops di n s hs
    cases s with
    | nil => simp at hs
    | cons b rest =>
      simp at hs
      subst hs
      simp [protoLoop]
  · intro ops di n b rest hb
    simp only [protoLoop, if_neg hb]
    cases LuaJITDecodeProto ops di (b :: rest) <;> rfl

/-- C5 witness: the loop stops without consuming on a peeked 0 and takes
exactly one proto-decode step on a peeked non-zero byte. -/
theorem c5_proto_loop_witness :
    protoLoop [] ⟨false, false⟩ 3 [0, 9] = .ok [] [0, 9]
    ∧ protoLoop [] ⟨true, false⟩ 1 [1] =
        (LuaJITDecodeProto [] ⟨true, false⟩ [1]).bind fun p s1 =>
          (protoLoop [] ⟨true, false⟩ 0 s1).bind fun ps s2 => .ok (p :: ps) s2 :=
  ⟨c5_proto_loop.1 [] ⟨false, false⟩ 2 [0, 9] (by decide),
   c5_proto_loop.2.1 [] ⟨true, false⟩ 0 1 [] (by decide)⟩

/-- C6: the byte order of every fixed-width 16-bit read after the header
(the upvalue entries and the wide instruction operand) is the one
selected once from header flags bit 0: the 16-bit primitive combines its
two bytes high-first when big-endian and low-first when little-endian,
the header's `be` field is exactly flags bit 0, and two dumps that are
byte-identical except for that flag decode the same uvdata/operand bytes
to byte-swapped values. -/
theorem c6_byte_order :
    (∀ (b1 b2 : Nat) (rest : List Nat),
      readU16 true (b1 :: b2 :: rest) = .ok (b1 * 256 + b2) rest
      ∧ readU16 false (b1 :: b2 :: rest) = .ok (b2 * 256 + b1) rest)
    ∧ (∀ (s : List Nat) (hdr : Header) (s1 : List Nat),
      LuaJITDecodeHeader s = .ok hdr s1 → (hdr.be = true ↔ hdr.flagsRaw &&& 1 = 1))
    ∧ LuaJITDecode [⟨true, false⟩]
        [27, 76, 74, 1, 3, 13, 0, 0, 0, 1, 0, 0, 1, 0, 0, 1, 2, 3, 4, 0] =
        .ok ⟨⟨1, 3, true, true, false, false, none⟩,
          [⟨13, ⟨⟨0, 0, 0, 1, 0, 0, 1, 0, none⟩, [⟨0, 0, .d 258⟩], [772],
            [], [], none⟩⟩], 0⟩ []
    ∧ LuaJITDecode [⟨true, false⟩]
        [27, 76, 74, 1, 2, 13, 0, 0, 0, 1, 0, 0, 1, 0, 0, 1, 2, 3, 4, 0] =
        .ok ⟨⟨1, 2, false, true, false, false, none⟩,
          [⟨13, ⟨⟨0, 0, 0, 1, 0, 0, 1, 0, none⟩, [⟨0, 0, .d 513⟩], [1027],
            [], [], none⟩⟩], 0⟩ [] := by
  refine ⟨fun b1 b2 rest => ⟨rfl, rfl⟩, ?_, by decide, by decide⟩
  intro s hdr s1 h
  unfold LuaJITDecodeHeader at h
  split at h
  · cases h
  · split at h
    · unfold decodeHeaderBody at h
      rcases DRes.bind_eq_ok.mp h with ⟨version, t1, h1, h2⟩
      rcases DRes.bind_eq_ok.mp h2 with ⟨flags, t2, h3, h4⟩
      split at h4
      · simp at h4
        rw [← h4.1]
        simp only [decide_eq_true_eq, Nat.and_one_is_mod]
        omega
      · rcases DRes.bind_eq_ok.mp h4 with ⟨namelen, t3, h5, h6⟩
        rcases DRes.bind_eq_ok.mp h6 with ⟨nm, t4, h7, h8⟩
        simp at h8
        rw [← h8.1]
        simp only [decide_eq_true_eq, Nat.and_one_is_mod]
        omega
    · cases h

/-- C6 witness: the header-flag conjunct of `c6_byte_order` evaluated on
a concrete header with flags 3 (big-endian, stripped). -/
theorem c6_byte_order_witness :
    ((⟨1, 3, true, true, false, false, none⟩ : Header).be = true
      ↔ (⟨1, 3, true, true, false, false, none⟩ : Header).flagsRaw &&& 1 = 1) :=
  c6_byte_order.2.1 [27, 76, 74, 1, 3, 0] ⟨1, 3, true, true, false, false, none⟩ [0]
    (by decide)

/-- The loop fuel is irrelevant as long as it exceeds the remaining
stream length (each prototype consumes at least one byte), so the fuel
`s.length + 1` supplied by `LuaJITDecode` makes the fuelled loop agree
with the source's unfuelled one. -/
theorem protoLoop_fuel_irrelevant (ops : List OpInfo) (di : DumpInfo) :
    ∀ (n : Nat) (s : List Nat) (m : Nat), s.length < n → s.length < m →
      protoLoop ops di n s = protoLoop ops di m s := by
  intro n
  induction n with
  | zero => intro s m h1 h2; omega
  | succ n ih =>
    intro s m h1 h2
    cases s with
    | nil =>
      cases m with
      | zero => omega
      | succ m => simp [protoLoop]
    | cons b rest =>
      cases m with
      | zero => omega
      | succ m =>
        simp only [protoLoop]
        by_cases hb : b = 0
        · rw [if_pos hb, if_pos hb]
        · rw [if_neg hb, if_neg hb]
          cases hp : LuaJITDecodeProto ops di (b :: rest) with
          | ok p s1 =>
            have hlt := LuaJITDecodeProto_len hp
            simp only [List.length_cons] at h1 h2 hlt
            have hloop := ih s1 m (by omega) (by omega)
            simp [hloop]
          | err e => rfl
          | fault => rfl
